import Mathlib

/-!
Shallow embedding of the folding-scheme core (R1CS/CCS relation layer,
Pedersen commitment layer, Fiat-Shamir transcript layer, NIFS folding layer)
and proofs of its specification claims.

The embedding is parametric in the scalar field `F` and the commitment
group `G` (a module over `F`), mirroring the source's genericity over a
curve group `C : CurveGroup` with `C::ScalarField`.  The Poseidon sponge
permutation and the curve's affine-coordinate extraction are external
primitives in the source; they are modelled as parameters (`Sponge`,
an `xy : G → Option (F × F)` coordinate map).
-/

/-! ## Relation layer: `src/ccs/r1cs.rs` -/

/-- Sparse matrix: `n_rows`, `n_cols`, and the list of nonzero `(row, col, value)`
entries; omitted entries are implicitly zero. -/
structure SparseMatrix (F : Type) where
  n_rows : Nat
  n_cols : Nat
  vals : List (Nat × Nat × F)

section RelationLayer

variable {F : Type} [Field F]

/-- `vec_mul_matrix(z, m)`: sparse matrix-vector product; starts from the zero
vector of length `n_rows` and accumulates `val * z[j]` into row `i` for every
stored entry `(i, j, val)`. -/
def vec_mul_matrix (z : List F) (m : SparseMatrix F) : List F :=
  m.vals.foldl (fun v t => v.set t.1 (v.getD t.1 0 + t.2.2 * z.getD t.2.1 0))
    (List.replicate m.n_rows 0)

/-- `hadamard(a, b)`: elementwise product. -/
def hadamard (a b : List F) : List F := List.zipWith (fun v1 v2 => v1 * v2) a b

/-- `scalar_mul_vec(c, v)`: scale each entry of `v` by `c`. -/
def scalar_mul_vec (c : F) (v : List F) : List F := v.map (fun a => c * a)

/-- `vec_add_vec(v1, v2)`: elementwise sum (zip-based, truncating at the
shorter input, exactly as the Rust iterator `zip` does). -/
def vec_add_vec (v1 v2 : List F) : List F := List.zipWith (fun a b => a + b) v1 v2

/-- `vec_sub_vec(v1, v2)`: elementwise difference (zip-based, truncating at
the shorter input, exactly as the Rust iterator `zip` does). -/
def vec_sub_vec (v1 v2 : List F) : List F := List.zipWith (fun a b => a - b) v1 v2

end RelationLayer

/-- `R1CS`: three sparse matrices plus the public-input length `l`. -/
structure R1CS (F : Type) where
  l : Nat
  a : SparseMatrix F
  b : SparseMatrix F
  c : SparseMatrix F

/-! ## Characterization of the sparse matrix-vector product -/

section MatVec

variable {F : Type} [Field F]

/-- Mathematical matrix-vector product: the `k`-th entry is the sum of
`val * z[j]` over the stored entries `(k, j, val)` of row `k`. -/
def matVec (m : SparseMatrix F) (z : List F) : List F :=
  (List.range m.n_rows).map (fun k =>
    (m.vals.map (fun t => if t.1 = k then t.2.2 * z.getD t.2.1 0 else 0)).sum)

end MatVec

/-! ## CCS layer: `src/ccs/mod.rs` -/

/-- The error enum of `src/ccs/mod.rs`. -/
inductive CcsError where
  | NotSatisfied
deriving DecidableEq

/-- Customizable constraint system over the scalar field. -/
structure CCS (F : Type) where
  m : Nat
  n : Nat
  l : Nat
  t : Nat
  q : Nat
  d : Nat
  s : Nat
  s_prime : Nat
  m_vec : List (SparseMatrix F)
  s_vec : List (List Nat)
  v : List F

section CCSLayer

variable {F : Type} [Field F]

/-- `CCS::from_r1cs`: `t=3, q=2, d=2`, matrices `[A,B,C]`, multisets
`[[0,1],[2]]`, coefficients `[1,-1]`; `s`/`s_prime` are ceiling base-2 logs
(`ark_std::log2`). -/
def CCS.from_r1cs (r1cs : R1CS F) : CCS F :=
  { m := r1cs.a.n_rows
    n := r1cs.a.n_cols
    l := r1cs.l
    t := 3
    q := 2
    d := 2
    s := Nat.clog 2 r1cs.a.n_rows
    s_prime := Nat.clog 2 r1cs.a.n_cols
    s_vec := [[0, 1], [2]]
    v := [1, -1]
    m_vec := [r1cs.a, r1cs.b, r1cs.c] }

/-- `CCS::is_satisfied`: accumulate, for each of the `q` terms, the scaled
Hadamard product of the term's matrices applied to `z`; fail with
`NotSatisfied` if any entry of the accumulated vector is nonzero. -/
def CCS.is_satisfied [DecidableEq F] (ccs : CCS F) (z : List F) :
    Except CcsError Unit :=
  let r := (List.range ccs.q).foldl (fun racc q_i =>
    let s_set := (ccs.s_vec.getD q_i []).map (fun s => ccs.m_vec.getD s ⟨0, 0, []⟩)
    let s_z_vec := s_set.map (fun s_m => vec_mul_matrix z s_m)
    let res := s_z_vec.foldl (fun acc x => hadamard acc x) (List.replicate ccs.m 1)
    let c_s := scalar_mul_vec (ccs.v.getD q_i 0) res
    vec_add_vec racc c_s) (List.replicate ccs.m 0)
  if r.all (fun e => decide (e = 0)) then Except.ok () else Except.error CcsError.NotSatisfied

end CCSLayer

/-! ## Commitment layer: `src/pedersen.rs` -/

/-- Pedersen parameters: blinding generator `h` plus vector generators. -/
structure PedersenParams (G : Type) where
  h : G
  generators : List G

/-- Schnorr-style opening proof produced by `Pedersen::prove`. -/
structure PedersenProof (F G : Type) where
  r_commit : G
  u : List F
  r_u : F
deriving DecidableEq

section CommitmentLayer

variable {F G : Type} [Field F] [AddCommGroup G] [Module F G]

/-- Multi-scalar multiplication `Σ vᵢ • gᵢ` (the external `C::msm` primitive). -/
def msm (gs : List G) (vs : List F) : G :=
  (List.zipWith (fun g v => v • g) gs vs).sum

/-- `Pedersen::commit(r, params, v) = h·r + <g, v>` over the prefix of the
generators matching `v`'s length. -/
def Pedersen.commit (r : F) (params : PedersenParams G) (v : List F) : G :=
  r • params.h + msm (params.generators.take v.length) v

end CommitmentLayer

/-! ## Transcript layer: `src/transcript/poseidon.rs`

The Poseidon sponge itself is an external primitive
(`ark_crypto_primitives::sponge::poseidon`): it is modelled as an abstract
deterministic state machine `Sponge` with `absorb` and `squeeze`.  The
curve's affine-coordinate extraction `into_affine().xy()` is likewise an
external primitive, modelled as `xy : G → Option (F × F)` (it returns `none`
exactly on the group identity, which is what makes `prepare_point` partial). -/

/-- Abstract deterministic sponge primitive: absorbing a scalar, absorbing a
list of scalars, and squeezing `n` field elements, each transforming state. -/
structure Sponge (F S : Type) where
  absorb1 : S → F → S
  absorbL : S → List F → S
  squeeze : S → Nat → List F × S

section TranscriptLayer

variable {F G S : Type} [Field F] [AddCommGroup G] [Module F G]

/-- `PoseidonTranscript::absorb`. -/
def PoseidonTranscript.absorb (sp : Sponge F S) (s : S) (v : F) : S :=
  sp.absorb1 s v

/-- `PoseidonTranscript::absorb_vec`. -/
def PoseidonTranscript.absorb_vec (sp : Sponge F S) (s : S) (v : List F) : S :=
  sp.absorbL s v

/-- `prepare_point`: extract the affine coordinates of `p` (the `xy()` call
returns `none` on the identity point, where the source `unwrap()` panics) and
map them into the scalar field. -/
def prepare_point (xy : G → Option (F × F)) (p : G) : Option (List F) :=
  (xy p).map (fun q => [q.1, q.2])

/-- `PoseidonTranscript::absorb_point`: absorb the prepared coordinates;
partial at the identity point. -/
def PoseidonTranscript.absorb_point (sp : Sponge F S) (xy : G → Option (F × F))
    (s : S) (p : G) : Option S :=
  (prepare_point xy p).map (fun l => sp.absorbL s l)

/-- `PoseidonTranscript::get_challenge`: squeeze one element, re-absorb it,
return it. -/
def PoseidonTranscript.get_challenge (sp : Sponge F S) (s : S) : F × S :=
  let c := sp.squeeze s 1
  (c.1.headD 0, sp.absorb1 c.2 (c.1.headD 0))

/-- `PoseidonTranscript::get_challenges`: squeeze `n` elements, re-absorb
them, return them. -/
def PoseidonTranscript.get_challenges (sp : Sponge F S) (s : S) (n : Nat) :
    List F × S :=
  let c := sp.squeeze s n
  (c.1, sp.absorbL c.2 c.1)

end TranscriptLayer

/-! ## Pedersen opening proofs (transcript-bound) -/

section PedersenProve

variable {F G S : Type} [Field F] [AddCommGroup G] [Module F G] [DecidableEq G]

/-- `Pedersen::prove`: absorb `cm`, draw `r1` and `d`, commit
`r_commit = h·r1 + <g,d>`, absorb it, draw `e`, output the masked opening
`u = d + e·v`, `r_u = r1 + e·r`.  Partial (`Option`) because absorbing a
point panics at the identity in the source. -/
def Pedersen.prove (sp : Sponge F S) (xy : G → Option (F × F)) (cm : G)
    (v : List F) (r : F) (params : PedersenParams G) (ts : S) :
    Option (PedersenProof F G × S) :=
  match PoseidonTranscript.absorb_point sp xy ts cm with
  | none => none
  | some ts1 =>
    let c1 := PoseidonTranscript.get_challenge sp ts1
    let r1 := c1.1
    let cd := PoseidonTranscript.get_challenges sp c1.2 v.length
    let d := cd.1
    let r_commit := r1 • params.h + msm (params.generators.take d.length) d
    match PoseidonTranscript.absorb_point sp xy cd.2 r_commit with
    | none => none
    | some ts2 =>
      let ce := PoseidonTranscript.get_challenge sp ts2
      let e := ce.1
      let u := vec_add_vec d (scalar_mul_vec e v)
      let r_u := r1 + e * r
      some (⟨r_commit, u, r_u⟩, ce.2)

/-- `Pedersen::verify`: replay the same transcript derivations (drawing and
discarding `r1` and `d`), then check `r_commit + cm·e == h·r_u + <g,u>`. -/
def Pedersen.verify (sp : Sponge F S) (xy : G → Option (F × F)) (cm : G)
    (proof : PedersenProof F G) (params : PedersenParams G) (ts : S) :
    Option (Bool × S) :=
  match PoseidonTranscript.absorb_point sp xy ts cm with
  | none => none
  | some ts1 =>
    let c1 := PoseidonTranscript.get_challenge sp ts1
    let cd := PoseidonTranscript.get_challenges sp c1.2 proof.u.length
    match PoseidonTranscript.absorb_point sp xy cd.2 proof.r_commit with
    | none => none
    | some ts2 =>
      let ce := PoseidonTranscript.get_challenge sp ts2
      let e := ce.1
      some (decide (proof.r_commit + e • cm
        = proof.r_u • params.h + msm (params.generators.take proof.u.length) proof.u), ce.2)

end PedersenProve

/-! ## Nova data model: `src/fs/nova/mod.rs` -/

/-- `CommittedInstance`: commitment to the error vector, relaxation scalar
`u`, commitment to the witness, and public input `x`. -/
structure CommittedInstance (F G : Type) where
  cm_e : G
  u : F
  cm_w : G
  x : List F
deriving DecidableEq

/-- `Witness`: error vector `e`, blinding scalar `r_e`, witness vector `w`,
blinding scalar `r_w`. -/
structure Witness (F : Type) where
  e : List F
  r_e : F
  w : List F
  r_w : F
deriving DecidableEq

section NovaLayer

variable {F G S : Type} [Field F] [AddCommGroup G] [Module F G] [DecidableEq G]

/-- `CommittedInstance::empty`: identity commitments, `u = 1`, empty `x`. -/
def CommittedInstance.empty : CommittedInstance F G :=
  { cm_e := 0, u := 1, cm_w := 0, x := [] }

/-- `Witness::new`: zero error vector of length `e_len`, blinding scalars
fixed to `1`. -/
def Witness.new (witness : List F) (e_len : Nat) : Witness F :=
  { e := List.replicate e_len 0, r_e := 1, w := witness, r_w := 1 }

/-- `Witness::commit`: commit to `e` and `w` with the stored blinding
scalars; the resulting instance is un-relaxed (`u = 1`). -/
def Witness.commit (wit : Witness F) (params : PedersenParams G) (x : List F) :
    CommittedInstance F G :=
  { cm_e := Pedersen.commit wit.r_e params wit.e
    u := 1
    cm_w := Pedersen.commit wit.r_w params wit.w
    x := x }

/-! ## Folding layer (NIFS): `src/fs/nova/nifs.rs` -/

/-- `NIFS::compute_t`: the cross term
`T = A·z1 ∘ B·z2 + A·z2 ∘ B·z1 − u1·(C·z2) − u2·(C·z1)`. -/
def NIFS.compute_t (r1cs : R1CS F) (u1 u2 : F) (z1 z2 : List F) : List F :=
  let az1 := vec_mul_matrix z1 r1cs.a
  let az2 := vec_mul_matrix z2 r1cs.a
  let bz1 := vec_mul_matrix z1 r1cs.b
  let bz2 := vec_mul_matrix z2 r1cs.b
  let cz1 := vec_mul_matrix z1 r1cs.c
  let cz2 := vec_mul_matrix z2 r1cs.c
  let az1_bz2 := hadamard az1 bz2
  let az2_bz1 := hadamard az2 bz1
  let u1cz2 := scalar_mul_vec u1 cz2
  let u2cz1 := scalar_mul_vec u2 cz1
  vec_sub_vec (vec_sub_vec (vec_add_vec az1_bz2 az2_bz1) u1cz2) u2cz1

/-- `NIFS::fold_witness`: `e3 = e1 + r·t + r²·e2`, `r_e3 = r_e1 + r·r_t + r²·r_e2`,
`w3 = w1 + r·w2`, `r_w3 = r_w1 + r·r_w2`. -/
def NIFS.fold_witness (w1 w2 : Witness F) (t : List F) (r r_t : F) : Witness F :=
  let r2 := r * r
  let e := vec_add_vec (vec_add_vec w1.e (scalar_mul_vec r t)) (scalar_mul_vec r2 w2.e)
  let r_e := w1.r_e + r * r_t + r2 * w2.r_e
  let w := vec_add_vec w1.w (scalar_mul_vec r w2.w)
  let r_w := w1.r_w + r * w2.r_w
  { e := e, r_e := r_e, w := w, r_w := r_w }

/-- `NIFS::fold_committed_instance`: `cm_e3 = cm_e1 + r·cm_t + r²·cm_e2`,
`u3 = u1 + r·u2`, `cm_w3 = cm_w1 + r·cm_w2`, `x3 = x1 + r·x2`. -/
def NIFS.fold_committed_instance (r : F) (cm_t : G)
    (ci1 ci2 : CommittedInstance F G) : CommittedInstance F G :=
  let r2 := r * r
  let cm_e := ci1.cm_e + r • cm_t + r2 • ci2.cm_e
  let u := ci1.u + r * ci2.u
  let cm_w := ci1.cm_w + r • ci2.cm_w
  let x := vec_add_vec ci1.x (scalar_mul_vec r ci2.x)
  { cm_e := cm_e, u := u, cm_w := cm_w, x := x }

/-- `NIFS::prove`: reconstruct `z1, z2`, compute the cross term, commit to it
with blinding scalar fixed to `1`, fold witness and instance. -/
def NIFS.prove (params : PedersenParams G) (r : F) (r1cs : R1CS F)
    (w1 : Witness F) (ci1 : CommittedInstance F G)
    (w2 : Witness F) (ci2 : CommittedInstance F G) :
    Witness F × CommittedInstance F G × List F × G :=
  let u1 := ci1.u
  let u2 := ci2.u
  let z1 := [ci1.u] ++ ci1.x ++ w1.w
  let z2 := [ci2.u] ++ ci2.x ++ w2.w
  let t := NIFS.compute_t r1cs u1 u2 z1 z2
  let r_t : F := 1
  let cm_t := Pedersen.commit r_t params t
  let w := NIFS.fold_witness w1 w2 t r r_t
  let ci := NIFS.fold_committed_instance r cm_t ci1 ci2
  (w, ci, t, cm_t)

/-- `NIFS::verify`: recompute the folded instance from public data. -/
def NIFS.verify (r : F) (ci1 ci2 : CommittedInstance F G) (cm_t : G) :
    CommittedInstance F G :=
  NIFS.fold_committed_instance r cm_t ci1 ci2

/-- `NIFS::verify_fold_instance`: recompute each folded field and
equality-check against the claimed instance, returning false on the first
mismatch. -/
def NIFS.verify_fold_instance [DecidableEq F] (r : F) (ci ci1 ci2 : CommittedInstance F G)
    (cm_t : G) : Bool :=
  let r2 := r * r
  if ci.cm_e ≠ ci1.cm_e + r • cm_t + r2 • ci2.cm_e then false
  else if ci.u ≠ ci1.u + r * ci2.u then false
  else if ci.cm_w ≠ ci1.cm_w + r • ci2.cm_w then false
  else if ci.x ≠ vec_add_vec ci1.x (scalar_mul_vec r ci2.x) then false
  else true

/-- `NIFS::prove_commitments`: three transcript-bound Pedersen opening proofs
(for `cm_w`, `cm_e`, `cm_t`), sharing one transcript. -/
def NIFS.prove_commitments (sp : Sponge F S) (xy : G → Option (F × F)) (ts : S)
    (params : PedersenParams G) (w : Witness F) (ci : CommittedInstance F G)
    (t : List F) (cm_t : G) :
    Option ((PedersenProof F G × PedersenProof F G × PedersenProof F G) × S) :=
  match Pedersen.prove sp xy ci.cm_w w.w w.r_w params ts with
  | none => none
  | some (cm_w_proof, ts1) =>
    match Pedersen.prove sp xy ci.cm_e w.e w.r_e params ts1 with
    | none => none
    | some (cm_e_proof, ts2) =>
      match Pedersen.prove sp xy cm_t t 1 params ts2 with
      | none => none
      | some (cm_t_proof, ts3) => some ((cm_t_proof, cm_w_proof, cm_e_proof), ts3)

/-- `NIFS::verify_commitments`: check the three Pedersen opening proofs in
order (`cm_w`, `cm_e`, `cm_t`) against one shared transcript, failing if any
fails. -/
def NIFS.verify_commitments (sp : Sponge F S) (xy : G → Option (F × F)) (ts : S)
    (params : PedersenParams G) (ci : CommittedInstance F G) (cm_t : G)
    (cm_t_proof cm_w_proof cm_e_proof : PedersenProof F G) :
    Option (Bool × S) :=
  match Pedersen.verify sp xy ci.cm_w cm_w_proof params ts with
  | none => none
  | some (b1, ts1) =>
    if !b1 then some (false, ts1)
    else match Pedersen.verify sp xy ci.cm_e cm_e_proof params ts1 with
    | none => none
    | some (b2, ts2) =>
      if !b2 then some (false, ts2)
      else match Pedersen.verify sp xy cm_t cm_t_proof params ts2 with
      | none => none
      | some (b3, ts3) =>
        if !b3 then some (false, ts3) else some (true, ts3)

end NovaLayer

/-! ## Transcript replay (for the determinism property) -/

/-- One call against the `Transcript` interface of `src/transcript/mod.rs`. -/
inductive TOp (F G : Type) where
  | absorbOne (v : F)
  | absorbVec (v : List F)
  | absorbPoint (p : G)
  | challenge
  | challenges (n : Nat)

section Replay

variable {F G S : Type} [Field F] [AddCommGroup G] [Module F G]

/-- Replay a sequence of transcript calls against a `PoseidonTranscript`
state, collecting every challenge returned by `get_challenge` /
`get_challenges` (in order); `none` if an `absorb_point` hits the identity. -/
def runTranscript (sp : Sponge F S) (xy : G → Option (F × F)) :
    List (TOp F G) → S → Option (List F × S)
  | [], s => some ([], s)
  | TOp.absorbOne v :: ops, s =>
    runTranscript sp xy ops (PoseidonTranscript.absorb sp s v)
  | TOp.absorbVec v :: ops, s =>
    runTranscript sp xy ops (PoseidonTranscript.absorb_vec sp s v)
  | TOp.absorbPoint p :: ops, s =>
    match PoseidonTranscript.absorb_point sp xy s p with
    | none => none
    | some s2 => runTranscript sp xy ops s2
  | TOp.challenge :: ops, s =>
    let c := PoseidonTranscript.get_challenge sp s
    match runTranscript sp xy ops c.2 with
    | none => none
    | some (cs, s2) => some (c.1 :: cs, s2)
  | TOp.challenges n :: ops, s =>
    let c := PoseidonTranscript.get_challenges sp s n
    match runTranscript sp xy ops c.2 with
    | none => none
    | some (cs, s2) => some (c.1 ++ cs, s2)

end Replay

/-! ## The relaxed R1CS relation and the spec-side cross term -/

section SpecSide

variable {F : Type} [Field F]

/-- The relaxed-R1CS invariant `(A·z) ∘ (B·z) = e + u·(C·z)` for the
assignment `z`, relaxation scalar `u` and error vector `e` (exactly the
check performed by `check_relaxed_r1cs` in the source's tests). -/
def relaxedR1CSHolds (r1cs : R1CS F) (z : List F) (u : F) (e : List F) : Prop :=
  hadamard (vec_mul_matrix z r1cs.a) (vec_mul_matrix z r1cs.b)
    = vec_add_vec e (scalar_mul_vec u (vec_mul_matrix z r1cs.c))

instance relaxedR1CSHoldsDecidable [DecidableEq F] (r1cs : R1CS F) (z : List F)
    (u : F) (e : List F) : Decidable (relaxedR1CSHolds r1cs z u e) := by
  unfold relaxedR1CSHolds
  infer_instance

/-- Spec-side cross term, written from the specification's words:
`T = A·z1 ∘ B·z2 + A·z2 ∘ B·z1 − u1·(C·z2) − u2·(C·z1)`, computed
elementwise over the field with the mathematical matrix-vector product. -/
def crossTermSpec (r1cs : R1CS F) (u1 u2 : F) (z1 z2 : List F) : List F :=
  (List.range r1cs.a.n_rows).map (fun k =>
    (matVec r1cs.a z1).getD k 0 * (matVec r1cs.b z2).getD k 0
      + (matVec r1cs.a z2).getD k 0 * (matVec r1cs.b z1).getD k 0
      - u1 * (matVec r1cs.c z2).getD k 0
      - u2 * (matVec r1cs.c z1).getD k 0)

end SpecSide

/-! ## Concrete instantiation used by witnesses and counterexamples -/

instance fact_prime_101 : Fact (Nat.Prime 101) := ⟨by norm_num⟩

/-- The test relation `x³ + x + 5 = y` of `src/ccs/r1cs.rs`, over `ZMod 101`
(sparse form of the dense test matrices). -/
def testR1CS : R1CS (ZMod 101) :=
  { l := 1
    a := ⟨4, 6, [(0, 1, 1), (1, 3, 1), (2, 1, 1), (2, 4, 1), (3, 0, 5), (3, 5, 1)]⟩
    b := ⟨4, 6, [(0, 1, 1), (1, 1, 1), (2, 0, 1), (3, 0, 1)]⟩
    c := ⟨4, 6, [(0, 3, 1), (1, 4, 1), (2, 5, 1), (3, 2, 1)]⟩ }

/-- `get_test_z(input)`: the satisfying assignment
`(1, x, y, z1, z2, z3)` for the test relation. -/
def testZ (input : Nat) : List (ZMod 101) :=
  [1, input, input * input * input + input + 5, input * input,
    input * input * input, input * input * input + input]

/-- A concrete deterministic sponge instantiation (stands in for the external
Poseidon sponge primitive in witnesses). -/
def toySponge : Sponge (ZMod 101) (ZMod 101) :=
  { absorb1 := fun s v => s + v + 1
    absorbL := fun s l => s + l.sum + 1
    squeeze := fun s n => ((List.range n).map (fun i => s + Nat.cast i + 1),
      s + Nat.cast n + 2) }

/-- A concrete affine-coordinate map: defined exactly on the non-identity
elements, as the external `into_affine().xy()` conversion is. -/
def toyXY : ZMod 101 → Option (ZMod 101 × ZMod 101) :=
  fun p => if p = 0 then none else some (p, p + 1)

/-- Concrete Pedersen parameters whose first vector generator is the group
identity (a possible output of uniform generator sampling). -/
def cexParams : PedersenParams (ZMod 101) :=
  { h := 17, generators := [0, 3, 5, 7, 11, 13] }

/-- Witness for the test assignment at `x = 3`. -/
def testW1 : Witness (ZMod 101) := Witness.new [35, 9, 27, 30] 4

/-- Witness for the test assignment at `x = 4`. -/
def testW2 : Witness (ZMod 101) := Witness.new [73, 16, 64, 68] 4

/-- Committed instance for the test assignment at `x = 3`. -/
def testCi1 : CommittedInstance (ZMod 101) (ZMod 101) := testW1.commit cexParams [3]

/-- Committed instance for the test assignment at `x = 4`. -/
def testCi2 : CommittedInstance (ZMod 101) (ZMod 101) := testW2.commit cexParams [4]

/-- Result of a concrete honest `Pedersen::prove` run. -/
def cexProveResult : Option (PedersenProof (ZMod 101) (ZMod 101) × ZMod 101) :=
  Pedersen.prove toySponge toyXY (Pedersen.commit (3 : ZMod 101) cexParams [5, 7]) [5, 7] 3
    cexParams (0 : ZMod 101)

/-- The honest proof extracted from `cexProveResult`. -/
def cexHonestProof : PedersenProof (ZMod 101) (ZMod 101) :=
  (cexProveResult.map Prod.fst).getD ⟨0, [], 0⟩

/-- The honest proof with its masked-opening entry `u[0]` changed. -/
def cexTamperedProof : PedersenProof (ZMod 101) (ZMod 101) :=
  { cexHonestProof with u := cexHonestProof.u.set 0 (cexHonestProof.u.getD 0 0 + 1) }

/-! # Lemmas and claim theorems -/

section BasicLemmas

variable {F : Type} [Field F]

theorem length_hadamard (a b : List F) :
    (hadamard a b).length = min a.length b.length := by
  simp [hadamard]

theorem length_scalar_mul_vec (c : F) (v : List F) :
    (scalar_mul_vec c v).length = v.length := by
  simp [scalar_mul_vec]

theorem length_vec_add_vec (v1 v2 : List F) :
    (vec_add_vec v1 v2).length = min v1.length v2.length := by
  simp [vec_add_vec]

theorem length_vec_sub_vec (v1 v2 : List F) :
    (vec_sub_vec v1 v2).length = min v1.length v2.length := by
  simp [vec_sub_vec]

theorem getD_hadamard (a b : List F) (k : Nat) (hk : k < (hadamard a b).length) :
    (hadamard a b).getD k 0 = a.getD k 0 * b.getD k 0 := by
  simp only [length_hadamard, lt_min_iff] at hk
  rw [List.getD_eq_getElem _ _ (by simp [length_hadamard]; omega),
    List.getD_eq_getElem _ _ hk.1, List.getD_eq_getElem _ _ hk.2]
  simp [hadamard]

theorem getD_vec_add_vec (a b : List F) (k : Nat)
    (hk : k < (vec_add_vec a b).length) :
    (vec_add_vec a b).getD k 0 = a.getD k 0 + b.getD k 0 := by
  simp only [length_vec_add_vec, lt_min_iff] at hk
  rw [List.getD_eq_getElem _ _ (by simp [length_vec_add_vec]; omega),
    List.getD_eq_getElem _ _ hk.1, List.getD_eq_getElem _ _ hk.2]
  simp [vec_add_vec]

theorem getD_vec_sub_vec (a b : List F) (k : Nat)
    (hk : k < (vec_sub_vec a b).length) :
    (vec_sub_vec a b).getD k 0 = a.getD k 0 - b.getD k 0 := by
  simp only [length_vec_sub_vec, lt_min_iff] at hk
  rw [List.getD_eq_getElem _ _ (by simp [length_vec_sub_vec]; omega),
    List.getD_eq_getElem _ _ hk.1, List.getD_eq_getElem _ _ hk.2]
  simp [vec_sub_vec]

theorem getD_scalar_mul_vec (c : F) (v : List F) (k : Nat) :
    (scalar_mul_vec c v).getD k 0 = c * v.getD k 0 := by
  by_cases hk : k < v.length
  · rw [List.getD_eq_getElem _ _ (by simpa [length_scalar_mul_vec]),
      List.getD_eq_getElem _ _ hk]
    simp [scalar_mul_vec]
  · rw [List.getD_eq_default _ _ (by simp [length_scalar_mul_vec]; omega),
      List.getD_eq_default _ _ (by omega)]
    simp

/-- Two lists of equal length that agree at every in-range index (read via
`getD`) are equal. -/
theorem list_ext_getD (l1 l2 : List F) (hlen : l1.length = l2.length)
    (h : ∀ k, k < l1.length → l1.getD k 0 = l2.getD k 0) : l1 = l2 := by
  apply List.ext_getElem hlen
  intro i h1 h2
  have := h i h1
  rwa [List.getD_eq_getElem _ _ h1, List.getD_eq_getElem _ _ h2] at this

end BasicLemmas


section MatVecLemmas

variable {F : Type} [Field F]

theorem length_matVec (m : SparseMatrix F) (z : List F) :
    (matVec m z).length = m.n_rows := by
  simp [matVec]

theorem getD_matVec (m : SparseMatrix F) (z : List F) (k : Nat) (hk : k < m.n_rows) :
    (matVec m z).getD k 0 =
      (m.vals.map (fun t => if t.1 = k then t.2.2 * z.getD t.2.1 0 else 0)).sum := by
  rw [List.getD_eq_getElem _ _ (by simpa [length_matVec])]
  simp [matVec]

theorem mvFold_length (z : List F) (vals : List (Nat × Nat × F)) (acc : List F) :
    (vals.foldl (fun v t => v.set t.1 (v.getD t.1 0 + t.2.2 * z.getD t.2.1 0)) acc).length
      = acc.length := by
  induction vals generalizing acc with
  | nil => rfl
  | cons hd tl ih => rw [List.foldl_cons, ih, List.length_set]

theorem length_vec_mul_matrix (z : List F) (m : SparseMatrix F) :
    (vec_mul_matrix z m).length = m.n_rows := by
  unfold vec_mul_matrix
  rw [mvFold_length]
  simp

theorem getD_set_self (l : List F) (i : Nat) (x : F) (hi : i < l.length) :
    (l.set i x).getD i 0 = x := by
  rw [List.getD_eq_getElem _ _ (by simpa)]
  simp [List.getElem_set, hi]

theorem getD_set_ne (l : List F) (i k : Nat) (x : F) (hik : i ≠ k) :
    (l.set i x).getD k 0 = l.getD k 0 := by
  by_cases hk : k < l.length
  · rw [List.getD_eq_getElem _ _ (by simpa), List.getD_eq_getElem _ _ hk]
    simp [List.getElem_set, hik]
  · rw [List.getD_eq_default _ _ (by simp; omega), List.getD_eq_default _ _ (by omega)]

theorem mvFold_getD (z : List F) (vals : List (Nat × Nat × F)) :
    ∀ (acc : List F) (k : Nat), k < acc.length →
    (vals.foldl (fun v t => v.set t.1 (v.getD t.1 0 + t.2.2 * z.getD t.2.1 0)) acc).getD k 0
      = acc.getD k 0
        + (vals.map (fun t => if t.1 = k then t.2.2 * z.getD t.2.1 0 else 0)).sum := by
  induction vals with
  | nil => intro acc k _; simp
  | cons hd tl ih =>
    intro acc k hk
    rw [List.foldl_cons, List.map_cons, List.sum_cons,
      ih _ k (by rwa [List.length_set])]
    by_cases hik : hd.1 = k
    · subst hik
      rw [getD_set_self _ _ _ hk, if_pos rfl]
      ring
    · rw [getD_set_ne _ _ _ _ hik, if_neg hik]
      ring

/-- The source's accumulating sparse product agrees with the mathematical
matrix-vector product. -/
theorem vec_mul_matrix_eq_matVec (z : List F) (m : SparseMatrix F) :
    vec_mul_matrix z m = matVec m z := by
  apply list_ext_getD _ _ (by rw [length_vec_mul_matrix, length_matVec])
  intro k hk
  rw [length_vec_mul_matrix] at hk
  unfold vec_mul_matrix
  rw [mvFold_getD _ _ _ _ (by simpa), getD_matVec _ _ _ hk]
  simp

theorem getD_vec_mul_matrix (z : List F) (m : SparseMatrix F) (k : Nat)
    (hk : k < m.n_rows) :
    (vec_mul_matrix z m).getD k 0 =
      (m.vals.map (fun t => if t.1 = k then t.2.2 * z.getD t.2.1 0 else 0)).sum := by
  rw [vec_mul_matrix_eq_matVec, getD_matVec _ _ _ hk]

theorem sum_map_add_mul {α : Type} (l : List α) (g h : α → F) (r : F) :
    (l.map (fun x => g x + r * h x)).sum = (l.map g).sum + r * (l.map h).sum := by
  induction l with
  | nil => simp
  | cons hd tl ih => simp [ih]; ring

theorem getD_vec_add_smul (z1 z2 : List F) (r : F) (hz : z1.length = z2.length)
    (j : Nat) :
    (vec_add_vec z1 (scalar_mul_vec r z2)).getD j 0 = z1.getD j 0 + r * z2.getD j 0 := by
  by_cases hj : j < z1.length
  · rw [getD_vec_add_vec _ _ _ (by simp [length_vec_add_vec, length_scalar_mul_vec]; omega),
      getD_scalar_mul_vec]
  · rw [List.getD_eq_default _ _ (by simp [length_vec_add_vec, length_scalar_mul_vec]; omega),
      List.getD_eq_default _ _ (by omega), List.getD_eq_default _ _ (by omega)]
    ring

/-- Linearity of the sparse matrix-vector product over the folded assignment
`z1 + r·z2`. -/
theorem vec_mul_matrix_linear (z1 z2 : List F) (r : F) (m : SparseMatrix F)
    (hz : z1.length = z2.length) :
    vec_mul_matrix (vec_add_vec z1 (scalar_mul_vec r z2)) m
      = vec_add_vec (vec_mul_matrix z1 m) (scalar_mul_vec r (vec_mul_matrix z2 m)) := by
  apply list_ext_getD _ _
    (by simp [length_vec_mul_matrix, length_vec_add_vec, length_scalar_mul_vec])
  intro k hk
  rw [length_vec_mul_matrix] at hk
  rw [getD_vec_mul_matrix _ _ _ hk,
    getD_vec_add_vec _ _ _
      (by simp [length_vec_add_vec, length_scalar_mul_vec, length_vec_mul_matrix]; omega),
    getD_scalar_mul_vec, getD_vec_mul_matrix _ _ _ hk, getD_vec_mul_matrix _ _ _ hk]
  have hpt : (fun t : Nat × Nat × F =>
      if t.1 = k then t.2.2 * (vec_add_vec z1 (scalar_mul_vec r z2)).getD t.2.1 0 else 0)
    = (fun t : Nat × Nat × F =>
      (if t.1 = k then t.2.2 * z1.getD t.2.1 0 else 0)
        + r * (if t.1 = k then t.2.2 * z2.getD t.2.1 0 else 0)) := by
    funext t
    by_cases ht : t.1 = k
    · rw [if_pos ht, if_pos ht, if_pos ht, getD_vec_add_smul _ _ _ hz]
      ring
    · rw [if_neg ht, if_neg ht, if_neg ht]
      ring
  rw [hpt, sum_map_add_mul]

end MatVecLemmas


/-! ## MSM algebra -/

section MsmAlgebra

variable {F G : Type} [Field F] [AddCommGroup G] [Module F G]

theorem msm_nil_left (vs : List F) : msm ([] : List G) vs = 0 := by
  simp [msm]

theorem msm_nil_right (gs : List G) : msm gs ([] : List F) = 0 := by
  simp [msm]

theorem msm_cons (g : G) (gs : List G) (v : F) (vs : List F) :
    msm (g :: gs) (v :: vs) = v • g + msm gs vs := by
  simp [msm]

/-- MSM is additive in the scalar vector (for equal-length vectors). -/
theorem msm_vec_add_vec (gs : List G) (a b : List F) (hab : a.length = b.length) :
    msm gs (vec_add_vec a b) = msm gs a + msm gs b := by
  induction gs generalizing a b with
  | nil => simp [msm_nil_left]
  | cons g gs ih =>
    cases a with
    | nil =>
      cases b with
      | nil => simp [msm_nil_right, vec_add_vec]
      | cons y ys => simp at hab
    | cons x xs =>
      cases b with
      | nil => simp at hab
      | cons y ys =>
        simp only [List.length_cons, Nat.add_right_cancel_iff] at hab
        show msm (g :: gs) ((x + y) :: vec_add_vec xs ys) = _
        rw [msm_cons, msm_cons, msm_cons, ih xs ys hab, add_smul]
        abel

/-- MSM commutes with scalar multiplication of the scalar vector. -/
theorem msm_scalar_mul_vec (gs : List G) (c : F) (v : List F) :
    msm gs (scalar_mul_vec c v) = c • msm gs v := by
  induction gs generalizing v with
  | nil => simp [msm_nil_left]
  | cons g gs ih =>
    cases v with
    | nil => simp [msm_nil_right, scalar_mul_vec]
    | cons x xs =>
      show msm (g :: gs) ((c * x) :: scalar_mul_vec c xs) = _
      rw [msm_cons, msm_cons, ih, mul_smul, smul_add]

/-- Truncating the generator list beyond the scalar vector's length does not
change the MSM. -/
theorem msm_take_of_le (gs : List G) (v : List F) (n : Nat) (h : v.length ≤ n) :
    msm (gs.take n) v = msm gs v := by
  induction gs generalizing v n with
  | nil => simp
  | cons g gs ih =>
    cases v with
    | nil => simp [msm_nil_right]
    | cons x xs =>
      cases n with
      | zero => simp at h
      | succ k =>
        simp only [List.take_succ_cons, msm_cons]
        rw [ih xs k (by simpa using h)]

end MsmAlgebra

/-! ## Further list helpers -/

section ListHelpers

variable {F : Type} [Field F]

theorem hadamard_replicate_one (n : Nat) (v : List F) (hv : v.length = n) :
    hadamard (List.replicate n 1) v = v := by
  apply list_ext_getD _ _ (by simp [length_hadamard, hv])
  intro k hk
  rw [length_hadamard] at hk
  rw [getD_hadamard _ _ _ (by simp [length_hadamard]; omega)]
  rw [List.getD_eq_getElem (List.replicate n (1 : F)) _ (by simp; omega)]
  simp

theorem scalar_mul_vec_one (v : List F) : scalar_mul_vec (1 : F) v = v := by
  simp [scalar_mul_vec]

theorem vec_add_vec_replicate_zero (n : Nat) (v : List F) (hv : v.length = n) :
    vec_add_vec (List.replicate n 0) v = v := by
  apply list_ext_getD _ _ (by simp [length_vec_add_vec, hv])
  intro k hk
  rw [length_vec_add_vec] at hk
  rw [getD_vec_add_vec _ _ _ (by simp [length_vec_add_vec]; omega)]
  rw [List.getD_eq_getElem (List.replicate n (0 : F)) _ (by simp; omega)]
  simp

end ListHelpers

/-! ## Claim C10 -/

/-- C10: `Witness::new(witness, e_len)` returns the all-zero error vector of
length `e_len` with both blinding scalars fixed to the constant `1`, and
`Witness::commit(params, x)` returns a `CommittedInstance` with `u = 1`,
`cm_e = Pedersen::commit(r_e, params, e)` and
`cm_w = Pedersen::commit(r_w, params, w)`. -/
theorem witness_new_and_commit_shape {F G : Type} [Field F] [AddCommGroup G]
    [Module F G] (witness : List F) (e_len : Nat) (wt : Witness F)
    (params : PedersenParams G) (x : List F) :
    (Witness.new witness e_len).e = List.replicate e_len (0 : F)
    ∧ (Witness.new witness e_len).r_e = (1 : F)
    ∧ (Witness.new witness e_len).w = witness
    ∧ (Witness.new witness e_len).r_w = (1 : F)
    ∧ (wt.commit params x).u = 1
    ∧ (wt.commit params x).cm_e = Pedersen.commit wt.r_e params wt.e
    ∧ (wt.commit params x).cm_w = Pedersen.commit wt.r_w params wt.w
    ∧ (wt.commit params x).x = x :=
  ⟨rfl, rfl, rfl, rfl, rfl, rfl, rfl, rfl⟩

/-! ## Claim C8 -/

/-- C8 counterexample: on inputs of unequal lengths `vec_add_vec` and
`vec_sub_vec` do not abort: they return a value, and that value is the
silently truncated elementwise result (length 1 here, not 3). -/
theorem vec_add_sub_mismatch_returns_truncated :
    vec_add_vec [(1 : ZMod 101), 2, 3] [4] = [5]
    ∧ vec_sub_vec [(1 : ZMod 101), 2, 3] [4] = [98]
    ∧ (vec_add_vec [(1 : ZMod 101), 2, 3] [4]).length = 1 := by
  refine ⟨?_, ?_, ?_⟩ <;> decide

/-- C8 (amended): `vec_add_vec` and `vec_sub_vec` never abort; they return
the elementwise sum/difference truncated to the shorter input length (`zip`
semantics), so the equal-length contract must be maintained by callers. -/
theorem vec_add_sub_truncate {F : Type} [Field F] (v1 v2 : List F) :
    (vec_add_vec v1 v2).length = min v1.length v2.length
    ∧ (vec_sub_vec v1 v2).length = min v1.length v2.length
    ∧ (∀ k, k < min v1.length v2.length →
        (vec_add_vec v1 v2).getD k 0 = v1.getD k 0 + v2.getD k 0)
    ∧ (∀ k, k < min v1.length v2.length →
        (vec_sub_vec v1 v2).getD k 0 = v1.getD k 0 - v2.getD k 0) := by
  refine ⟨length_vec_add_vec v1 v2, length_vec_sub_vec v1 v2, ?_, ?_⟩
  · intro k hk
    exact getD_vec_add_vec v1 v2 k (by rw [length_vec_add_vec]; omega)
  · intro k hk
    exact getD_vec_sub_vec v1 v2 k (by rw [length_vec_sub_vec]; omega)

/-- C8 witness: the amended truncation behavior evaluated at a concrete
unequal-length input. -/
theorem vec_add_sub_truncate_witness :
    0 < min ([(1 : ZMod 101), 2, 3].length) ([(4 : ZMod 101)].length)
    ∧ (vec_add_vec [(1 : ZMod 101), 2, 3] [4]).getD 0 0
        = [(1 : ZMod 101), 2, 3].getD 0 0 + [(4 : ZMod 101)].getD 0 0 :=
  ⟨by decide, (vec_add_sub_truncate [(1 : ZMod 101), 2, 3] [4]).2.2.1 0 (by decide)⟩

/-! ## Claim C6 -/

/-- C6: `NIFS::verify_fold_instance` returns true exactly when all four
fields of the claimed folded instance equal their direct recomputation
(equivalently, when the claimed instance equals
`fold_committed_instance(r, cm_t, ci1, ci2)`); it returns false whenever any
single field differs. -/
theorem verify_fold_instance_iff {F G : Type} [Field F] [DecidableEq F]
    [AddCommGroup G] [Module F G] [DecidableEq G] (r : F)
    (ci ci1 ci2 : CommittedInstance F G) (cm_t : G) :
    (NIFS.verify_fold_instance r ci ci1 ci2 cm_t = true
      ↔ (ci.cm_e = ci1.cm_e + r • cm_t + (r * r) • ci2.cm_e
          ∧ ci.u = ci1.u + r * ci2.u
          ∧ ci.cm_w = ci1.cm_w + r • ci2.cm_w
          ∧ ci.x = vec_add_vec ci1.x (scalar_mul_vec r ci2.x)))
    ∧ (NIFS.verify_fold_instance r ci ci1 ci2 cm_t = true
      ↔ ci = NIFS.fold_committed_instance r cm_t ci1 ci2) := by
  have hfields : NIFS.verify_fold_instance r ci ci1 ci2 cm_t = true
      ↔ (ci.cm_e = ci1.cm_e + r • cm_t + (r * r) • ci2.cm_e
          ∧ ci.u = ci1.u + r * ci2.u
          ∧ ci.cm_w = ci1.cm_w + r • ci2.cm_w
          ∧ ci.x = vec_add_vec ci1.x (scalar_mul_vec r ci2.x)) := by
    unfold NIFS.verify_fold_instance
    split_ifs with h1 h2 h3 h4 <;> simp_all
  refine ⟨hfields, hfields.trans ?_⟩
  cases ci
  simp [NIFS.fold_committed_instance, CommittedInstance.mk.injEq]

/-! ## Claim C3 -/

/-- C3: `NIFS::compute_t` returns exactly the cross term
`T = A·z1 ∘ B·z2 + A·z2 ∘ B·z1 − u1·(C·z2) − u2·(C·z1)` computed elementwise
over the field (with the mathematical matrix-vector product). -/
theorem compute_t_matches_spec {F : Type} [Field F] (r1cs : R1CS F)
    (u1 u2 : F) (z1 z2 : List F)
    (hrow_b : r1cs.b.n_rows = r1cs.a.n_rows)
    (hrow_c : r1cs.c.n_rows = r1cs.a.n_rows)
    (hz1 : z1.length = r1cs.a.n_cols) (hz2 : z2.length = r1cs.a.n_cols) :
    NIFS.compute_t r1cs u1 u2 z1 z2 = crossTermSpec r1cs u1 u2 z1 z2 := by
  apply list_ext_getD _ _ (by
    simp [NIFS.compute_t, crossTermSpec, length_vec_sub_vec, length_vec_add_vec,
      length_hadamard, length_scalar_mul_vec, length_vec_mul_matrix, hrow_b, hrow_c])
  intro k hk
  have hk' : k < r1cs.a.n_rows := by
    simpa [NIFS.compute_t, length_vec_sub_vec, length_vec_add_vec, length_hadamard,
      length_scalar_mul_vec, length_vec_mul_matrix, hrow_b, hrow_c] using hk
  have hrhs : (crossTermSpec r1cs u1 u2 z1 z2).getD k 0
      = (matVec r1cs.a z1).getD k 0 * (matVec r1cs.b z2).getD k 0
        + (matVec r1cs.a z2).getD k 0 * (matVec r1cs.b z1).getD k 0
        - u1 * (matVec r1cs.c z2).getD k 0
        - u2 * (matVec r1cs.c z1).getD k 0 := by
    rw [List.getD_eq_getElem _ _ (by simp [crossTermSpec]; omega)]
    simp [crossTermSpec]
  rw [hrhs]
  simp only [NIFS.compute_t]
  rw [getD_vec_sub_vec _ _ _ (by
      simp [length_vec_sub_vec, length_vec_add_vec, length_hadamard,
        length_scalar_mul_vec, length_vec_mul_matrix, hrow_b, hrow_c]; omega),
    getD_vec_sub_vec _ _ _ (by
      simp [length_vec_sub_vec, length_vec_add_vec, length_hadamard,
        length_scalar_mul_vec, length_vec_mul_matrix, hrow_b, hrow_c]; omega),
    getD_vec_add_vec _ _ _ (by
      simp [length_vec_add_vec, length_hadamard, length_vec_mul_matrix, hrow_b]; omega),
    getD_hadamard _ _ _ (by
      simp [length_hadamard, length_vec_mul_matrix, hrow_b]; omega),
    getD_hadamard _ _ _ (by
      simp [length_hadamard, length_vec_mul_matrix, hrow_b]; omega),
    getD_scalar_mul_vec, getD_scalar_mul_vec]
  simp only [vec_mul_matrix_eq_matVec]

/-- C3 witness: the cross-term identity evaluated on the concrete test
relation and two concrete assignments. -/
theorem compute_t_matches_spec_witness :
    (testR1CS.b.n_rows = testR1CS.a.n_rows ∧ testR1CS.c.n_rows = testR1CS.a.n_rows
      ∧ (testZ 3).length = testR1CS.a.n_cols ∧ (testZ 4).length = testR1CS.a.n_cols)
    ∧ NIFS.compute_t testR1CS 1 1 (testZ 3) (testZ 4)
        = crossTermSpec testR1CS 1 1 (testZ 3) (testZ 4) :=
  ⟨⟨by decide, by decide, by decide, by decide⟩,
    compute_t_matches_spec testR1CS 1 1 (testZ 3) (testZ 4)
      (by decide) (by decide) (by decide) (by decide)⟩

/-! ## Claim C4 -/

/-- An all-entries-zero check phrased through `getD`. -/
theorem forall_mem_zero_iff_getD {F : Type} [Field F] (l : List F) :
    (∀ x ∈ l, x = 0) ↔ (∀ k, k < l.length → l.getD k 0 = 0) := by
  constructor
  · intro h k hk
    rw [List.getD_eq_getElem _ _ hk]
    exact h _ (List.getElem_mem hk)
  · intro h x hx
    obtain ⟨k, hk, rfl⟩ := List.mem_iff_getElem.mp hx
    have := h k hk
    rwa [List.getD_eq_getElem _ _ hk] at this

/-- The accumulated CCS residual `A·z ∘ B·z − C·z` is all-zero iff the R1CS
relation holds. -/
theorem r1cs_residual_all_zero_iff {F : Type} [Field F] [DecidableEq F]
    (r1cs : R1CS F) (z : List F)
    (hrow_b : r1cs.b.n_rows = r1cs.a.n_rows)
    (hrow_c : r1cs.c.n_rows = r1cs.a.n_rows) :
    ((vec_add_vec (hadamard (vec_mul_matrix z r1cs.a) (vec_mul_matrix z r1cs.b))
        (scalar_mul_vec (-1) (vec_mul_matrix z r1cs.c))).all
          (fun e => decide (e = 0)) = true)
    ↔ hadamard (vec_mul_matrix z r1cs.a) (vec_mul_matrix z r1cs.b)
        = vec_mul_matrix z r1cs.c := by
  rw [List.all_eq_true]
  have hlen_ab : (hadamard (vec_mul_matrix z r1cs.a) (vec_mul_matrix z r1cs.b)).length
      = r1cs.a.n_rows := by
    rw [length_hadamard, length_vec_mul_matrix, length_vec_mul_matrix, hrow_b, min_self]
  have hlen_r : (vec_add_vec (hadamard (vec_mul_matrix z r1cs.a) (vec_mul_matrix z r1cs.b))
      (scalar_mul_vec (-1) (vec_mul_matrix z r1cs.c))).length = r1cs.a.n_rows := by
    rw [length_vec_add_vec, hlen_ab, length_scalar_mul_vec, length_vec_mul_matrix,
      hrow_c, min_self]
  constructor
  · intro h
    apply list_ext_getD _ _ (by rw [hlen_ab, length_vec_mul_matrix, hrow_c])
    intro k hk
    rw [hlen_ab] at hk
    have hmem := (forall_mem_zero_iff_getD _).mp (fun x hx => by
        simpa using h x hx) k (by rw [hlen_r]; omega)
    rw [getD_vec_add_vec _ _ _ (by rw [hlen_r]; omega), getD_scalar_mul_vec] at hmem
    linear_combination hmem
  · intro heq x hx
    suffices hx0 : x = 0 by simp [hx0]
    revert x hx
    rw [forall_mem_zero_iff_getD]
    intro k hk
    rw [hlen_r] at hk
    rw [getD_vec_add_vec _ _ _ (by rw [hlen_r]; omega), getD_scalar_mul_vec, heq]
    ring

/-- C4: `CCS::from_r1cs` produces `t=3, q=2, d=2`, matrices `[A,B,C]`,
multisets `[[0,1],[2]]`, coefficients `[1,-1]`, and the resulting
`is_satisfied(z)` returns `Ok` exactly when `(A·z) ∘ (B·z) = C·z` holds
elementwise, `Err(NotSatisfied)` otherwise. -/
theorem ccs_from_r1cs_recovers_r1cs {F : Type} [Field F] [DecidableEq F]
    (r1cs : R1CS F) (z : List F)
    (hrow_b : r1cs.b.n_rows = r1cs.a.n_rows)
    (hrow_c : r1cs.c.n_rows = r1cs.a.n_rows)
    (hz : z.length = r1cs.a.n_cols) :
    (CCS.from_r1cs r1cs).t = 3 ∧ (CCS.from_r1cs r1cs).q = 2
    ∧ (CCS.from_r1cs r1cs).d = 2
    ∧ (CCS.from_r1cs r1cs).m_vec = [r1cs.a, r1cs.b, r1cs.c]
    ∧ (CCS.from_r1cs r1cs).s_vec = [[0, 1], [2]]
    ∧ (CCS.from_r1cs r1cs).v = [(1 : F), -1]
    ∧ ((CCS.from_r1cs r1cs).is_satisfied z = Except.ok ()
        ↔ hadamard (vec_mul_matrix z r1cs.a) (vec_mul_matrix z r1cs.b)
            = vec_mul_matrix z r1cs.c) := by
  refine ⟨rfl, rfl, rfl, rfl, rfl, rfl, ?_⟩
  simp only [CCS.is_satisfied, CCS.from_r1cs]
  split_ifs with hcond
  all_goals
    rw [show List.range 2 = [0, 1] from rfl] at hcond
    simp only [List.foldl_cons, List.foldl_nil, List.map_cons, List.map_nil,
      List.getD_cons_zero, List.getD_cons_succ] at hcond
    rw [hadamard_replicate_one _ _ (length_vec_mul_matrix z r1cs.a),
      hadamard_replicate_one _ _ (by rw [length_vec_mul_matrix, hrow_c]),
      scalar_mul_vec_one,
      vec_add_vec_replicate_zero _ _ (by
        rw [length_hadamard, length_vec_mul_matrix, length_vec_mul_matrix, hrow_b,
          min_self])] at hcond
  · exact iff_of_true rfl
      ((r1cs_residual_all_zero_iff r1cs z hrow_b hrow_c).mp hcond)
  · exact iff_of_false (by simp)
      (fun heq => hcond ((r1cs_residual_all_zero_iff r1cs z hrow_b hrow_c).mpr heq))

/-- C4 witness: the recovered R1CS relation evaluated on the concrete test
relation with its satisfying assignment at `x = 3`. -/
theorem ccs_from_r1cs_recovers_r1cs_witness :
    (testR1CS.b.n_rows = testR1CS.a.n_rows ∧ testR1CS.c.n_rows = testR1CS.a.n_rows
      ∧ (testZ 3).length = testR1CS.a.n_cols)
    ∧ ((CCS.from_r1cs testR1CS).t = 3 ∧ (CCS.from_r1cs testR1CS).q = 2
        ∧ (CCS.from_r1cs testR1CS).d = 2
        ∧ (CCS.from_r1cs testR1CS).m_vec = [testR1CS.a, testR1CS.b, testR1CS.c]
        ∧ (CCS.from_r1cs testR1CS).s_vec = [[0, 1], [2]]
        ∧ (CCS.from_r1cs testR1CS).v = [(1 : ZMod 101), -1]
        ∧ ((CCS.from_r1cs testR1CS).is_satisfied (testZ 3) = Except.ok ()
            ↔ hadamard (vec_mul_matrix (testZ 3) testR1CS.a)
                (vec_mul_matrix (testZ 3) testR1CS.b)
                = vec_mul_matrix (testZ 3) testR1CS.c)) :=
  ⟨⟨by decide, by decide, by decide⟩,
    ccs_from_r1cs_recovers_r1cs testR1CS (testZ 3) (by decide) (by decide) (by decide)⟩

/-! ## Claim C2 -/

/-- C2: committing the witness folded by `fold_witness` with its folded
blinding scalars yields exactly the `cm_e` and `cm_w` of
`fold_committed_instance(r, cm_t, ci1, ci2)`, whenever the input commitments
were produced by `Pedersen::commit` with the stored blinding scalars and
`cm_t = Pedersen::commit(r_t, params, t)`:
`commit(r_e1 + r·r_t + r²·r_e2, e1 + r·t + r²·e2) = cm_e1 + r·cm_t + r²·cm_e2`
and `commit(r_w1 + r·r_w2, w1 + r·w2) = cm_w1 + r·cm_w2`. -/
theorem fold_commitment_homomorphism {F G : Type} [Field F] [AddCommGroup G]
    [Module F G] (params : PedersenParams G) (r r_t : F) (t : List F)
    (w1 w2 : Witness F) (ci1 ci2 : CommittedInstance F G)
    (hcm_e1 : ci1.cm_e = Pedersen.commit w1.r_e params w1.e)
    (hcm_e2 : ci2.cm_e = Pedersen.commit w2.r_e params w2.e)
    (hcm_w1 : ci1.cm_w = Pedersen.commit w1.r_w params w1.w)
    (hcm_w2 : ci2.cm_w = Pedersen.commit w2.r_w params w2.w)
    (he1 : w1.e.length = t.length) (he2 : w2.e.length = t.length)
    (hw : w1.w.length = w2.w.length) :
    Pedersen.commit (NIFS.fold_witness w1 w2 t r r_t).r_e params
        (NIFS.fold_witness w1 w2 t r r_t).e
      = (NIFS.fold_committed_instance r (Pedersen.commit r_t params t) ci1 ci2).cm_e
    ∧ Pedersen.commit (NIFS.fold_witness w1 w2 t r r_t).r_w params
        (NIFS.fold_witness w1 w2 t r r_t).w
      = (NIFS.fold_committed_instance r (Pedersen.commit r_t params t) ci1 ci2).cm_w := by
  constructor
  · simp only [NIFS.fold_witness, NIFS.fold_committed_instance]
    rw [hcm_e1, hcm_e2]
    simp only [Pedersen.commit]
    have hlen : (vec_add_vec (vec_add_vec w1.e (scalar_mul_vec r t))
        (scalar_mul_vec (r * r) w2.e)).length = t.length := by
      simp [length_vec_add_vec, length_scalar_mul_vec, he1, he2]
    rw [hlen, he1, he2]
    rw [msm_vec_add_vec _ _ _ (by simp [length_vec_add_vec, length_scalar_mul_vec, he1, he2]),
      msm_vec_add_vec _ _ _ (by simp [length_scalar_mul_vec, he1]),
      msm_scalar_mul_vec, msm_scalar_mul_vec]
    simp only [smul_add, add_smul, mul_smul]
    abel
  · simp only [NIFS.fold_witness, NIFS.fold_committed_instance]
    rw [hcm_w1, hcm_w2]
    simp only [Pedersen.commit]
    have hlen : (vec_add_vec w1.w (scalar_mul_vec r w2.w)).length = w1.w.length := by
      simp [length_vec_add_vec, length_scalar_mul_vec, hw]
    rw [hlen, hw]
    rw [msm_vec_add_vec _ _ _ (by simp [length_scalar_mul_vec, hw]),
      msm_scalar_mul_vec]
    simp only [smul_add, add_smul, mul_smul]
    abel

/-- C2 witness: the commitment-folding consistency evaluated on the concrete
test witnesses, a concrete cross term and challenge. -/
theorem fold_commitment_homomorphism_witness :
    (testCi1.cm_e = Pedersen.commit testW1.r_e cexParams testW1.e
      ∧ testCi2.cm_e = Pedersen.commit testW2.r_e cexParams testW2.e
      ∧ testCi1.cm_w = Pedersen.commit testW1.r_w cexParams testW1.w
      ∧ testCi2.cm_w = Pedersen.commit testW2.r_w cexParams testW2.w
      ∧ testW1.e.length = [(9 : ZMod 101), 8, 7, 6].length
      ∧ testW2.e.length = [(9 : ZMod 101), 8, 7, 6].length
      ∧ testW1.w.length = testW2.w.length)
    ∧ (Pedersen.commit (NIFS.fold_witness testW1 testW2 [(9 : ZMod 101), 8, 7, 6] 2 1).r_e
          cexParams (NIFS.fold_witness testW1 testW2 [(9 : ZMod 101), 8, 7, 6] 2 1).e
        = (NIFS.fold_committed_instance 2
            (Pedersen.commit 1 cexParams [(9 : ZMod 101), 8, 7, 6]) testCi1 testCi2).cm_e
      ∧ Pedersen.commit (NIFS.fold_witness testW1 testW2 [(9 : ZMod 101), 8, 7, 6] 2 1).r_w
          cexParams (NIFS.fold_witness testW1 testW2 [(9 : ZMod 101), 8, 7, 6] 2 1).w
        = (NIFS.fold_committed_instance 2
            (Pedersen.commit 1 cexParams [(9 : ZMod 101), 8, 7, 6]) testCi1 testCi2).cm_w) :=
  ⟨⟨by decide, by decide, by decide, by decide, by decide, by decide, by decide⟩,
    fold_commitment_homomorphism cexParams 2 1 [(9 : ZMod 101), 8, 7, 6]
      testW1 testW2 testCi1 testCi2 (by decide) (by decide) (by decide) (by decide)
      (by decide) (by decide) (by decide)⟩

/-! ## Claim C1 -/

theorem vec_add_vec_append {F : Type} [Field F] (a b c d : List F)
    (h : a.length = c.length) :
    vec_add_vec (a ++ b) (c ++ d) = vec_add_vec a c ++ vec_add_vec b d :=
  List.zipWith_append _ a b c d h

theorem scalar_mul_vec_append {F : Type} [Field F] (c : F) (a b : List F) :
    scalar_mul_vec c (a ++ b) = scalar_mul_vec c a ++ scalar_mul_vec c b := by
  simp [scalar_mul_vec]

/-- C1: for relaxed-satisfying inputs `(w1, ci1)` and `(w2, ci2)` and any
challenge `r`, the output `(w3, ci3)` of `NIFS::prove` reconstructs to
`z3 = (ci3.u, ci3.x, w3.w) = z1 + r·z2` and satisfies the relaxed relation
`(A·z3) ∘ (B·z3) = ci3.u·(C·z3) + w3.e`. -/
theorem nifs_prove_folding_exact {F G : Type} [Field F] [AddCommGroup G]
    [Module F G] (params : PedersenParams G) (r : F) (r1cs : R1CS F)
    (w1 w2 : Witness F) (ci1 ci2 : CommittedInstance F G)
    (hrow_b : r1cs.b.n_rows = r1cs.a.n_rows)
    (hrow_c : r1cs.c.n_rows = r1cs.a.n_rows)
    (hx : ci1.x.length = ci2.x.length)
    (hw : w1.w.length = w2.w.length)
    (he1 : w1.e.length = r1cs.a.n_rows)
    (he2 : w2.e.length = r1cs.a.n_rows)
    (hsat1 : relaxedR1CSHolds r1cs ([ci1.u] ++ ci1.x ++ w1.w) ci1.u w1.e)
    (hsat2 : relaxedR1CSHolds r1cs ([ci2.u] ++ ci2.x ++ w2.w) ci2.u w2.e) :
    ([(NIFS.prove params r r1cs w1 ci1 w2 ci2).2.1.u]
        ++ (NIFS.prove params r r1cs w1 ci1 w2 ci2).2.1.x
        ++ (NIFS.prove params r r1cs w1 ci1 w2 ci2).1.w)
      = vec_add_vec ([ci1.u] ++ ci1.x ++ w1.w)
          (scalar_mul_vec r ([ci2.u] ++ ci2.x ++ w2.w))
    ∧ relaxedR1CSHolds r1cs
        ([(NIFS.prove params r r1cs w1 ci1 w2 ci2).2.1.u]
          ++ (NIFS.prove params r r1cs w1 ci1 w2 ci2).2.1.x
          ++ (NIFS.prove params r r1cs w1 ci1 w2 ci2).1.w)
        (NIFS.prove params r r1cs w1 ci1 w2 ci2).2.1.u
        (NIFS.prove params r r1cs w1 ci1 w2 ci2).1.e := by
  simp only [NIFS.prove, NIFS.fold_witness, NIFS.fold_committed_instance]
  simp only [List.singleton_append, List.cons_append, List.nil_append] at hsat1 hsat2 ⊢
  have hz12 : (ci1.u :: (ci1.x ++ w1.w)).length = (ci2.u :: (ci2.x ++ w2.w)).length := by
    simp [hx, hw]
  have ht_len : (NIFS.compute_t r1cs ci1.u ci2.u (ci1.u :: (ci1.x ++ w1.w))
      (ci2.u :: (ci2.x ++ w2.w))).length = r1cs.a.n_rows := by
    simp [NIFS.compute_t, length_vec_sub_vec, length_vec_add_vec, length_hadamard,
      length_scalar_mul_vec, length_vec_mul_matrix, hrow_b, hrow_c]
  have hsmul : scalar_mul_vec r (ci2.u :: (ci2.x ++ w2.w))
      = (r * ci2.u) :: (scalar_mul_vec r ci2.x ++ scalar_mul_vec r w2.w) := by
    simp [scalar_mul_vec]
  have hfold : ((ci1.u + r * ci2.u)
        :: (vec_add_vec ci1.x (scalar_mul_vec r ci2.x)
            ++ vec_add_vec w1.w (scalar_mul_vec r w2.w)))
      = vec_add_vec (ci1.u :: (ci1.x ++ w1.w))
          (scalar_mul_vec r (ci2.u :: (ci2.x ++ w2.w))) := by
    rw [hsmul]
    show _ = vec_add_vec (ci1.u :: (ci1.x ++ w1.w))
      ((r * ci2.u) :: (scalar_mul_vec r ci2.x ++ scalar_mul_vec r w2.w))
    rw [show vec_add_vec (ci1.u :: (ci1.x ++ w1.w))
        ((r * ci2.u) :: (scalar_mul_vec r ci2.x ++ scalar_mul_vec r w2.w))
      = (ci1.u + r * ci2.u)
          :: vec_add_vec (ci1.x ++ w1.w)
              (scalar_mul_vec r ci2.x ++ scalar_mul_vec r w2.w) from rfl]
    rw [vec_add_vec_append _ _ _ _ (by rw [length_scalar_mul_vec, hx])]
  refine ⟨hfold, ?_⟩
  unfold relaxedR1CSHolds
  rw [hfold, vec_mul_matrix_linear _ _ _ _ hz12, vec_mul_matrix_linear _ _ _ _ hz12,
    vec_mul_matrix_linear _ _ _ _ hz12]
  rw [relaxedR1CSHolds] at hsat1 hsat2
  apply list_ext_getD _ _ (by
    simp [length_hadamard, length_vec_add_vec, length_scalar_mul_vec,
      length_vec_mul_matrix, ht_len, he1, he2, hrow_b, hrow_c])
  intro k hk
  have hka : k < r1cs.a.n_rows := by
    simpa [length_hadamard, length_vec_add_vec, length_scalar_mul_vec,
      length_vec_mul_matrix, hrow_b] using hk
  have h1k := congrArg (fun l : List F => l.getD k 0) hsat1
  have h2k := congrArg (fun l : List F => l.getD k 0) hsat2
  simp only at h1k h2k
  rw [getD_hadamard _ _ _ (by
      simp [length_hadamard, length_vec_mul_matrix, hrow_b]; omega),
    getD_vec_add_vec _ _ _ (by
      simp [length_vec_add_vec, length_scalar_mul_vec, length_vec_mul_matrix,
        he1, hrow_c]; omega),
    getD_scalar_mul_vec] at h1k
  rw [getD_hadamard _ _ _ (by
      simp [length_hadamard, length_vec_mul_matrix, hrow_b]; omega),
    getD_vec_add_vec _ _ _ (by
      simp [length_vec_add_vec, length_scalar_mul_vec, length_vec_mul_matrix,
        he2, hrow_c]; omega),
    getD_scalar_mul_vec] at h2k
  have htk : (NIFS.compute_t r1cs ci1.u ci2.u (ci1.u :: (ci1.x ++ w1.w))
        (ci2.u :: (ci2.x ++ w2.w))).getD k 0
      = (vec_mul_matrix (ci1.u :: (ci1.x ++ w1.w)) r1cs.a).getD k 0
          * (vec_mul_matrix (ci2.u :: (ci2.x ++ w2.w)) r1cs.b).getD k 0
        + (vec_mul_matrix (ci2.u :: (ci2.x ++ w2.w)) r1cs.a).getD k 0
          * (vec_mul_matrix (ci1.u :: (ci1.x ++ w1.w)) r1cs.b).getD k 0
        - ci1.u * (vec_mul_matrix (ci2.u :: (ci2.x ++ w2.w)) r1cs.c).getD k 0
        - ci2.u * (vec_mul_matrix (ci1.u :: (ci1.x ++ w1.w)) r1cs.c).getD k 0 := by
    simp only [NIFS.compute_t]
    rw [getD_vec_sub_vec _ _ _ (by
        simp [length_vec_sub_vec, length_vec_add_vec, length_hadamard,
          length_scalar_mul_vec, length_vec_mul_matrix, hrow_b, hrow_c]; omega),
      getD_vec_sub_vec _ _ _ (by
        simp [length_vec_sub_vec, length_vec_add_vec, length_hadamard,
          length_scalar_mul_vec, length_vec_mul_matrix, hrow_b, hrow_c]; omega),
      getD_vec_add_vec _ _ _ (by
        simp [length_vec_add_vec, length_hadamard, length_vec_mul_matrix, hrow_b]; omega),
      getD_hadamard _ _ _ (by
        simp [length_hadamard, length_vec_mul_matrix, hrow_b]; omega),
      getD_hadamard _ _ _ (by
        simp [length_hadamard, length_vec_mul_matrix, hrow_b]; omega),
      getD_scalar_mul_vec, getD_scalar_mul_vec]
  have hL : (hadamard
        (vec_add_vec (vec_mul_matrix (ci1.u :: (ci1.x ++ w1.w)) r1cs.a)
          (scalar_mul_vec r (vec_mul_matrix (ci2.u :: (ci2.x ++ w2.w)) r1cs.a)))
        (vec_add_vec (vec_mul_matrix (ci1.u :: (ci1.x ++ w1.w)) r1cs.b)
          (scalar_mul_vec r (vec_mul_matrix (ci2.u :: (ci2.x ++ w2.w)) r1cs.b)))).getD k 0
      = ((vec_mul_matrix (ci1.u :: (ci1.x ++ w1.w)) r1cs.a).getD k 0
          + r * (vec_mul_matrix (ci2.u :: (ci2.x ++ w2.w)) r1cs.a).getD k 0)
        * ((vec_mul_matrix (ci1.u :: (ci1.x ++ w1.w)) r1cs.b).getD k 0
          + r * (vec_mul_matrix (ci2.u :: (ci2.x ++ w2.w)) r1cs.b).getD k 0) := by
    rw [getD_hadamard _ _ _ (by
        simp [length_hadamard, length_vec_add_vec, length_scalar_mul_vec,
          length_vec_mul_matrix, hrow_b]; omega),
      getD_vec_add_vec _ _ _ (by
        simp [length_vec_add_vec, length_scalar_mul_vec, length_vec_mul_matrix]; omega),
      getD_vec_add_vec _ _ _ (by
        simp [length_vec_add_vec, length_scalar_mul_vec, length_vec_mul_matrix, hrow_b];
        omega),
      getD_scalar_mul_vec, getD_scalar_mul_vec]
  have hR : (vec_add_vec
        (vec_add_vec
          (vec_add_vec w1.e
            (scalar_mul_vec r (NIFS.compute_t r1cs ci1.u ci2.u
              (ci1.u :: (ci1.x ++ w1.w)) (ci2.u :: (ci2.x ++ w2.w)))))
          (scalar_mul_vec (r * r) w2.e))
        (scalar_mul_vec (ci1.u + r * ci2.u)
          (vec_add_vec (vec_mul_matrix (ci1.u :: (ci1.x ++ w1.w)) r1cs.c)
            (scalar_mul_vec r (vec_mul_matrix (ci2.u :: (ci2.x ++ w2.w)) r1cs.c))))).getD k 0
      = (w1.e.getD k 0
          + r * (NIFS.compute_t r1cs ci1.u ci2.u
              (ci1.u :: (ci1.x ++ w1.w)) (ci2.u :: (ci2.x ++ w2.w))).getD k 0
          + (r * r) * w2.e.getD k 0)
        + (ci1.u + r * ci2.u)
          * ((vec_mul_matrix (ci1.u :: (ci1.x ++ w1.w)) r1cs.c).getD k 0
            + r * (vec_mul_matrix (ci2.u :: (ci2.x ++ w2.w)) r1cs.c).getD k 0) := by
    rw [getD_vec_add_vec _ _ _ (by
        simp [length_vec_add_vec, length_scalar_mul_vec, length_vec_mul_matrix,
          ht_len, he1, he2, hrow_c]; omega),
      getD_vec_add_vec _ _ _ (by
        simp [length_vec_add_vec, length_scalar_mul_vec, length_vec_mul_matrix,
          ht_len, he1, he2]; omega),
      getD_vec_add_vec _ _ _ (by
        simp [length_vec_add_vec, length_scalar_mul_vec, ht_len, he1]; omega),
      getD_scalar_mul_vec, getD_scalar_mul_vec, getD_scalar_mul_vec,
      getD_vec_add_vec _ _ _ (by
        simp [length_vec_add_vec, length_scalar_mul_vec, length_vec_mul_matrix, hrow_c];
        omega),
      getD_scalar_mul_vec]
  rw [hL, hR, htk]
  linear_combination h1k + (r * r) * h2k

/-- C1 witness: folding exactness evaluated on the test relation with its
satisfying assignments at `x = 3` and `x = 4` and challenge `r = 2`. -/
theorem nifs_prove_folding_exact_witness :
    (testR1CS.b.n_rows = testR1CS.a.n_rows ∧ testR1CS.c.n_rows = testR1CS.a.n_rows
      ∧ testCi1.x.length = testCi2.x.length ∧ testW1.w.length = testW2.w.length
      ∧ testW1.e.length = testR1CS.a.n_rows ∧ testW2.e.length = testR1CS.a.n_rows
      ∧ relaxedR1CSHolds testR1CS ([testCi1.u] ++ testCi1.x ++ testW1.w)
          testCi1.u testW1.e
      ∧ relaxedR1CSHolds testR1CS ([testCi2.u] ++ testCi2.x ++ testW2.w)
          testCi2.u testW2.e)
    ∧ (([(NIFS.prove cexParams 2 testR1CS testW1 testCi1 testW2 testCi2).2.1.u]
          ++ (NIFS.prove cexParams 2 testR1CS testW1 testCi1 testW2 testCi2).2.1.x
          ++ (NIFS.prove cexParams 2 testR1CS testW1 testCi1 testW2 testCi2).1.w)
        = vec_add_vec ([testCi1.u] ++ testCi1.x ++ testW1.w)
            (scalar_mul_vec 2 ([testCi2.u] ++ testCi2.x ++ testW2.w))
      ∧ relaxedR1CSHolds testR1CS
          ([(NIFS.prove cexParams 2 testR1CS testW1 testCi1 testW2 testCi2).2.1.u]
            ++ (NIFS.prove cexParams 2 testR1CS testW1 testCi1 testW2 testCi2).2.1.x
            ++ (NIFS.prove cexParams 2 testR1CS testW1 testCi1 testW2 testCi2).1.w)
          (NIFS.prove cexParams 2 testR1CS testW1 testCi1 testW2 testCi2).2.1.u
          (NIFS.prove cexParams 2 testR1CS testW1 testCi1 testW2 testCi2).1.e) :=
  ⟨⟨by decide, by decide, by decide, by decide, by decide, by decide, by decide,
      by decide⟩,
    nifs_prove_folding_exact cexParams 2 testR1CS testW1 testW2 testCi1 testCi2
      (by decide) (by decide) (by decide) (by decide) (by decide) (by decide)
      (by decide) (by decide)⟩

/-! ## Claim C5 -/

/-- C5 (amended part): completeness of the transcript-bound opening proof.
If `Pedersen::prove` runs to completion on `commit(r, params, v)` from
transcript state `ts`, then `Pedersen::verify` on the produced proof, from
the same prior transcript state, returns `true` (and ends in the same
transcript state), for every sponge primitive that honours the
`squeeze(n)`-returns-`n`-elements contract. -/
theorem pedersen_prove_verify_roundtrip {F G S : Type} [Field F] [AddCommGroup G]
    [Module F G] [DecidableEq G]
    (sp : Sponge F S) (xy : G → Option (F × F)) (params : PedersenParams G)
    (v : List F) (r : F) (ts : S) (pf : PedersenProof F G) (ts1 : S)
    (hsq : ∀ (s : S) (n : Nat), (sp.squeeze s n).1.length = n)
    (hgen : v.length ≤ params.generators.length)
    (hp : Pedersen.prove sp xy (Pedersen.commit r params v) v r params ts
      = some (pf, ts1)) :
    Pedersen.verify sp xy (Pedersen.commit r params v) pf params ts
      = some (true, ts1) := by
  simp only [Pedersen.prove] at hp
  split at hp
  · exact absurd hp (by simp)
  · rename_i tsa habs1
    split at hp
    · exact absurd hp (by simp)
    · rename_i ts2 habs2
      simp only [Option.some.injEq, Prod.mk.injEq] at hp
      obtain ⟨hpf, hts1⟩ := hp
      subst hpf
      subst hts1
      have hdlen : (PoseidonTranscript.get_challenges sp
          (PoseidonTranscript.get_challenge sp tsa).2 v.length).1.length = v.length := by
        simp [PoseidonTranscript.get_challenges, hsq]
      have hulen : (vec_add_vec
          (PoseidonTranscript.get_challenges sp
            (PoseidonTranscript.get_challenge sp tsa).2 v.length).1
          (scalar_mul_vec (PoseidonTranscript.get_challenge sp ts2).1 v)).length
          = v.length := by
        rw [length_vec_add_vec, length_scalar_mul_vec, hdlen, min_self]
      simp only [Pedersen.verify, habs1, hulen, habs2]
      refine congrArg some (Prod.ext ?_ rfl)
      rw [decide_eq_true_eq]
      rw [msm_vec_add_vec _ _ _ (by rw [length_scalar_mul_vec, hdlen]),
        msm_scalar_mul_vec]
      simp only [Pedersen.commit, hdlen]
      simp only [smul_add, add_smul, mul_smul]
      abel

/-- C5 counterexample: a modified proof is not always rejected.  With a
parameter set whose first vector generator is the group identity (a possible
output of uniform sampling), changing `u[0]` of an honestly produced proof
yields a different proof that still verifies. -/
theorem pedersen_tamper_not_always_rejected :
    cexTamperedProof ≠ cexHonestProof
    ∧ (Pedersen.verify toySponge toyXY
        (Pedersen.commit (3 : ZMod 101) cexParams [5, 7])
        cexTamperedProof cexParams (0 : ZMod 101)).map Prod.fst = some true := by
  refine ⟨by decide, by decide⟩

/-- The concrete sponge honours the squeeze-length contract. -/
theorem toySponge_squeeze_length (s : ZMod 101) (n : Nat) :
    (toySponge.squeeze s n).1.length = n := by
  unfold toySponge
  simp

/-- C5 witness: the opening round trip evaluated on a concrete vector,
blinding scalar, parameter set and synchronized transcript states. -/
theorem pedersen_prove_verify_roundtrip_witness :
    ((∀ (s : ZMod 101) (n : Nat), (toySponge.squeeze s n).1.length = n)
      ∧ [(5 : ZMod 101), 7].length ≤ cexParams.generators.length
      ∧ Pedersen.prove toySponge toyXY
          (Pedersen.commit (3 : ZMod 101) cexParams [5, 7]) [5, 7] 3 cexParams
          (0 : ZMod 101) = some (cexHonestProof, 39))
    ∧ Pedersen.verify toySponge toyXY
        (Pedersen.commit (3 : ZMod 101) cexParams [5, 7]) cexHonestProof cexParams
        (0 : ZMod 101) = some (true, 39) :=
  ⟨⟨toySponge_squeeze_length, by decide, by decide⟩,
    pedersen_prove_verify_roundtrip toySponge toyXY cexParams [5, 7] 3 0
      cexHonestProof 39 toySponge_squeeze_length (by decide) (by decide)⟩

/-! ## Claim C7 -/

/-- C7: transcript determinism.  Two transcript instances in equal states
(as produced by `PoseidonTranscript::new` from the same configuration), fed
the identical sequence of `absorb`, `absorb_vec`, `absorb_point`,
`get_challenge` and `get_challenges` calls, return identical challenge
sequences and identical final states: challenge derivation is a function of
the absorbed message sequence alone. -/
theorem transcript_deterministic {F G S : Type} [Field F] [AddCommGroup G]
    [Module F G] (sp : Sponge F S) (xy : G → Option (F × F)) (s1 s2 : S)
    (hcfg : s1 = s2) (ops : List (TOp F G)) :
    runTranscript sp xy ops s1 = runTranscript sp xy ops s2 := by
  rw [hcfg]

/-- C7 witness: determinism evaluated on a concrete operation sequence
containing every kind of transcript call. -/
theorem transcript_deterministic_witness :
    ((0 : ZMod 101) = 0)
    ∧ runTranscript toySponge toyXY
        [TOp.absorbOne 4, TOp.challenge, TOp.absorbVec [2, 3],
          TOp.absorbPoint (5 : ZMod 101), TOp.challenges 2] (0 : ZMod 101)
      = runTranscript toySponge toyXY
        [TOp.absorbOne 4, TOp.challenge, TOp.absorbVec [2, 3],
          TOp.absorbPoint (5 : ZMod 101), TOp.challenges 2] (0 : ZMod 101) :=
  ⟨rfl, transcript_deterministic toySponge toyXY 0 0 rfl
    [TOp.absorbOne 4, TOp.challenge, TOp.absorbVec [2, 3],
      TOp.absorbPoint (5 : ZMod 101), TOp.challenges 2]⟩

/-! ## Claim C9 -/

/-- C9: `absorb_point` is partial exactly at the group identity (where the
external affine-coordinate extraction returns nothing and the source
`unwrap()` panics); consequently `Pedersen::prove`/`Pedersen::verify` on an
identity commitment, and `NIFS::prove_commitments`/`verify_commitments` on
`CommittedInstance::empty()` (whose `cm_e` and `cm_w` are the identity),
fail; on every non-identity point `absorb_point` succeeds. -/
theorem absorb_point_fails_at_identity {F G S : Type} [Field F]
    [AddCommGroup G] [Module F G] [DecidableEq G]
    (sp : Sponge F S) (xy : G → Option (F × F))
    (hxy : ∀ p : G, xy p = none ↔ p = 0) :
    (∀ s : S, PoseidonTranscript.absorb_point sp xy s (0 : G) = none)
    ∧ (∀ (s : S) (p : G), p ≠ 0 →
        (PoseidonTranscript.absorb_point sp xy s p).isSome = true)
    ∧ (∀ (v : List F) (r : F) (params : PedersenParams G) (s : S),
        Pedersen.prove sp xy (0 : G) v r params s = none)
    ∧ (∀ (pf : PedersenProof F G) (params : PedersenParams G) (s : S),
        Pedersen.verify sp xy (0 : G) pf params s = none)
    ∧ (CommittedInstance.empty : CommittedInstance F G).cm_e = 0
    ∧ (CommittedInstance.empty : CommittedInstance F G).cm_w = 0
    ∧ (∀ (params : PedersenParams G) (w : Witness F) (t : List F) (cm_t : G) (s : S),
        NIFS.prove_commitments sp xy s params w
          (CommittedInstance.empty : CommittedInstance F G) t cm_t = none)
    ∧ (∀ (params : PedersenParams G) (cm_t : G)
        (p1 p2 p3 : PedersenProof F G) (s : S),
        NIFS.verify_commitments sp xy s params
          (CommittedInstance.empty : CommittedInstance F G) cm_t p1 p2 p3 = none) := by
  have habs0 : ∀ s : S, PoseidonTranscript.absorb_point sp xy s (0 : G) = none := by
    intro s
    unfold PoseidonTranscript.absorb_point prepare_point
    rw [(hxy 0).mpr rfl]
    rfl
  have hprove0 : ∀ (v : List F) (r : F) (params : PedersenParams G) (s : S),
      Pedersen.prove sp xy (0 : G) v r params s = none := by
    intro v r params s
    simp only [Pedersen.prove, habs0]
  have hverify0 : ∀ (pf : PedersenProof F G) (params : PedersenParams G) (s : S),
      Pedersen.verify sp xy (0 : G) pf params s = none := by
    intro pf params s
    simp only [Pedersen.verify, habs0]
  refine ⟨habs0, ?_, hprove0, hverify0, rfl, rfl, ?_, ?_⟩
  · intro s p hp
    unfold PoseidonTranscript.absorb_point prepare_point
    cases hxyp : xy p with
    | none => exact absurd ((hxy p).mp hxyp) hp
    | some q => rfl
  · intro params w t cm_t s
    simp only [NIFS.prove_commitments]
    rw [show (CommittedInstance.empty : CommittedInstance F G).cm_w = 0 from rfl,
      hprove0]
  · intro params cm_t p1 p2 p3 s
    simp only [NIFS.verify_commitments]
    rw [show (CommittedInstance.empty : CommittedInstance F G).cm_w = 0 from rfl,
      hverify0]

/-- C9 witness: partiality at the identity evaluated on the concrete
coordinate map and sponge. -/
theorem absorb_point_fails_at_identity_witness :
    (∀ p : ZMod 101, toyXY p = none ↔ p = 0)
    ∧ (∀ s : ZMod 101,
        PoseidonTranscript.absorb_point toySponge toyXY s (0 : ZMod 101) = none) :=
  ⟨by decide,
    (absorb_point_fails_at_identity (S := ZMod 101) toySponge toyXY (by decide)).1⟩
